import Mathlib

/-!
Shallow embedding of `read_matlab_variable.py`, the MATLAB v7.3 (HDF5) reader.

Modelling conventions:
* An HDF5 node is a dataset or a group; a file is its list of root children
  (internal `#`-prefixed names included) plus the first row of the
  `/#subsystem#/MCOS` reference vector when that dataset exists.
* h5py object references are modelled as absolute paths (`Option String`,
  `none` is the null reference); in a valid HDF5 file every non-null
  reference resolves, so dangling paths only occur in degenerate model
  states and are commented at each use site.
* Element buffers are `List Nat` in flattened row-major order; numeric
  values are moved around by the code but never computed with, so natural
  numbers faithfully stand for them (the reference-index field and string
  code units of real files are nonnegative integers).
* Python exception paths that the source catches are modelled by the
  corresponding `Option`/skip behaviour; exception paths the source does
  not catch surface as a `crash` constructor.
* `h5py` iterates group members in ascending name order by default; model
  files carry their children in that iteration order.
-/

namespace MatReader

/-- Kind character of a numpy dtype: unsigned, signed, float, bool, object reference. -/
inductive DKind where
  | u | i | f | b | ref
deriving DecidableEq, Repr

/-- Element type of an HDF5 dataset: numpy kind plus bit width. -/
structure Dtype where
  kind : DKind
  bits : Nat
deriving DecidableEq, Repr

def float64 : Dtype := ⟨.f, 64⟩

def uint8 : Dtype := ⟨.u, 8⟩

/-- An HDF5 dataset: shape, element type, flattened row-major element buffer,
reference buffer (used when `dtype.kind = .ref`), and the two MATLAB
attributes the reader inspects (`MATLAB_class`, `MATLAB_empty`). -/
structure Dset where
  shape : List Nat
  dtype : Dtype
  elems : List Nat
  refs : List (Option String)
  mclass : Option String
  mempty : Option Nat
deriving DecidableEq, Repr

mutual

/-- An HDF5 node: a dataset, or a group carrying its absolute name
(without the leading slash, as `grp.name.lstrip('/')` produces it), its
`MATLAB_class` attribute and its children in iteration order. The children
sit in a bespoke list type so that traversals admit structural recursion. -/
inductive Node where
  | dset (d : Dset)
  | grp (gname : String) (gclass : Option String) (children : NodeList)

/-- A keyed list of child nodes in iteration order. -/
inductive NodeList where
  | nil
  | cons (key : String) (nd : Node) (rest : NodeList)

end

/-- View a children list as an ordinary list. -/
def NodeList.toList : NodeList → List (String × Node)
  | .nil => []
  | .cons k nd rest => (k, nd) :: rest.toList

/-- Build a children list from an ordinary list. -/
def NodeList.ofList : List (String × Node) → NodeList
  | [] => .nil
  | (k, nd) :: rest => .cons k nd (ofList rest)

/-- An opened MATLAB v7.3 file: root children in iteration order (internal
`#`-prefixed entries included) and, when `/#subsystem#/MCOS` exists, the
first row of its reference vector (`mcos[0][:]`). -/
structure HFile where
  rootChildren : NodeList
  mcos : Option (List (Option String))

/-- Split a path on `/`. This is `String.splitOn "/"` computed over the
character list (extensionally the same for the one-character separator; the
`String` version is defined by well-founded recursion and does not reduce). -/
def splitPath (s : String) : List String :=
  (s.data.splitOn '/').map List.asString

/-- Does the name start with `#` (`key.startswith('#')`), computed over the
character list for the same reason as `splitPath`. -/
def isInternalName (s : String) : Bool := s.data.head? == some '#'

/-- Find a direct child of a children list by name (h5py `group[key]`). -/
def childLookup (children : NodeList) (k : String) : Option Node :=
  (children.toList.find? (fun p => p.1 = k)).map (·.2)

/-- Resolve a slash-separated path against a children list (h5py `f[path]`). -/
def lookupSegs : NodeList → List String → Option Node
  | _, [] => none
  | ch, [k] => childLookup ch k
  | ch, k :: rest =>
    match childLookup ch k with
    | some (.grp _ _ ch2) => lookupSegs ch2 rest
    | _ => none

/-- Resolve a path in the file; `none` models `path not in f`. -/
def lookupPath (f : HFile) (path : String) : Option Node :=
  lookupSegs f.rootChildren (splitPath path)

/-- Truthiness of the optional `MATLAB_empty` attribute
(`attrs.get('MATLAB_empty', 0)` followed by `if is_empty:`). -/
def truthyAttr : Option Nat → Bool
  | none => false
  | some n => n != 0

/-! ### numpy array operations used by the reader -/

/-- A materialised numpy array: shape plus row-major element buffer. -/
structure NpArray where
  shape : List Nat
  elems : List Nat
deriving DecidableEq, Repr

/-- Row-major flat index of a multi-index in a shape. -/
def natIndex : List Nat → List Nat → Nat
  | _ :: s, ix :: rest => ix * s.prod + natIndex s rest
  | _, _ => 0

/-- All multi-indices of a shape, in row-major order. -/
def allIndices : List Nat → List (List Nat)
  | [] => [[]]
  | d :: s => (List.range d).flatMap (fun ix => (allIndices s).map (ix :: ·))

/-- Element of an array at a multi-index. -/
def NpArray.getIdx (a : NpArray) (ix : List Nat) : Nat :=
  a.elems.getD (natIndex a.shape ix) 0

/-- numpy `.T`: reverse the axes, reordering elements accordingly. -/
def npTranspose (a : NpArray) : NpArray :=
  { shape := a.shape.reverse
    elems := (allIndices a.shape.reverse).map (fun ix => a.getIdx ix.reverse) }

/-- numpy `.squeeze()`: drop all singleton axes (buffer unchanged). -/
def squeezeShape (s : List Nat) : List Nat := s.filter (fun d => d ≠ 1)

def npSqueeze (a : NpArray) : NpArray := ⟨squeezeShape a.shape, a.elems⟩

/-! ### Decoded values -/

/-- A reconstructed timeseries: `{'Time': time.flatten(), 'Data': data.squeeze()}`. -/
structure TsPair where
  time : List Nat
  dataShape : List Nat
  dataElems : List Nat
deriving DecidableEq, Repr

/-- The decoder's possible return values. `raw d` marks the verbatim-buffer
returns (`ds[:]` / `var[:]` fallbacks), `noneV` is Python `None`, and
`crash` marks an exception the source does not catch. -/
inductive Value where
  | empty
  | numeric (a : NpArray)
  | strV (cps : List Nat)
  | noneV
  | cellV (items : List Value)
  | structV (fields : List (String × Value))
  | tsPair (p : TsPair)
  | raw (d : Dset)
  | crash

/-- Outcome of `read_matlab_variable`: the variable-not-found `ValueError`
(with its available-names list), a decoded value, or an uncaught exception. -/
inductive ReadResult where
  | err (available : List String)
  | value (v : Value)
  | crash

/-! ### Stage 1 — MCOS metadata probe (`_get_timeseries_structure_from_metadata`) -/

/-- Byte is printable ASCII (`32 <= b < 127`). -/
def isPrintableByte (b : Nat) : Bool := 32 ≤ b && b < 127

/-- Maximal printable-ASCII runs of length at least 2, in order; `acc` holds
the current run reversed (mirrors the source's scanning while-loop). -/
def runsAux : List Nat → List Nat → List (List Nat)
  | [], acc => if 2 ≤ acc.length then [acc.reverse] else []
  | b :: bs, acc =>
    if isPrintableByte b then runsAux bs (b :: acc)
    else (if 2 ≤ acc.length then [acc.reverse] else []) ++ runsAux bs []

/-- Property names extracted from the metadata blob: printable runs ending
in an underscore (byte 95). -/
def propNames (blob : List Nat) : List (List Nat) :=
  (runsAux blob []).filter (fun r => r.getLast? = some 95)

/-- ASCII bytes of `"Time_"`. -/
def timeUnderscore : List Nat := [84, 105, 109, 101, 95]

/-- ASCII bytes of `"Data_"`. -/
def dataUnderscore : List Nat := [68, 97, 116, 97, 95]

/-- Result of the metadata probe. -/
structure TsStructure where
  has_time : Bool
  has_data : Bool
  columns_per_ts : Nat
deriving DecidableEq, Repr

/-- Parse the MCOS slot-0 blob for `Time_`/`Data_` property names; any
exception while reading the blob (missing slot, null reference, slot is a
group) yields the default `{has_time: True, has_data: True, columns_per_ts: 2}`. -/
def get_timeseries_structure_from_metadata (f : HFile) (mcosRefs : List (Option String))
    : TsStructure :=
  match mcosRefs.getD 0 none with
  | none => ⟨true, true, 2⟩
  | some p =>
    match lookupPath f p with
    | some (.dset d) =>
      let props := propNames d.elems
      let ht := props.any (· = timeUnderscore)
      let hd := props.any (· = dataUnderscore)
      ⟨ht, hd, (if ht then 1 else 0) + (if hd then 1 else 0)⟩
    | _ => ⟨true, true, 2⟩

/-! ### Stage 2 — timeseries enumeration (`find_timeseries_recursive`) -/

/-- Reference index of a timeseries stub: `int(item[0, 4])`, defined when the
dataset is 2-D with at least one row and five columns ([0,4] is flat index 4);
any other shape raises in the source and the entry is skipped. -/
def tsRefIdx (d : Dset) : Option Nat :=
  match d.shape with
  | [r, c] => if 1 ≤ r ∧ 5 ≤ c then d.elems.get? 4 else none
  | _ => none

/-- Composite path of a child (`f"{path_prefix}/{key}" if path_prefix else key`). -/
def childPath (pfx key : String) : String := if pfx = "" then key else pfx ++ "/" ++ key

/-- Depth-first walk over the children collecting `(composite path, ref_idx)`
for every dataset with `MATLAB_class = b'timeseries'`, skipping `#`-prefixed
names; `pfx` is the path accumulated so far. -/
def find_timeseries_recursive : NodeList → String → List (String × Nat)
  | .nil, _ => []
  | .cons key (.dset d) rest, pfx =>
    (if isInternalName key then []
     else if d.mclass = some "timeseries" then
       match tsRefIdx d with
       | some r => [(childPath pfx key, r)]
       | none => []
     else []) ++ find_timeseries_recursive rest pfx
  | .cons key (.grp _ _ ch) rest, pfx =>
    (if isInternalName key then []
     else find_timeseries_recursive ch (childPath pfx key))
    ++ find_timeseries_recursive rest pfx

/-! ### Stage 3 — ordinal sort (`sorted(ts_list, key=lambda x: x[1])`) -/

/-- Insert after all entries with key `≤`, preserving the relative order of
equal keys (so the fold below computes exactly Python's stable ascending sort). -/
def insertByRef (x : String × Nat) : List (String × Nat) → List (String × Nat)
  | [] => [x]
  | y :: ys => if y.2 ≤ x.2 then y :: insertByRef x ys else x :: y :: ys

/-- Stable ascending sort by reference index. -/
def sortByRefIdx (l : List (String × Nat)) : List (String × Nat) :=
  l.foldl (fun acc x => insertByRef x acc) []

/-! ### Stage 4 — candidate time slots (`all_arrays`) -/

/-- Does MCOS slot `idx` pass the candidate filter: non-null reference, resolves
to a dataset (a group raises on `.dtype` and is skipped by the `except`),
dtype is not `uint8`, not marked empty, `float64`, shape `(1, n)` with `n ≥ 2`. -/
def candidate_pred (f : HFile) (mcosRefs : List (Option String)) (idx : Nat) : Bool :=
  match mcosRefs.getD idx none with
  | none => false
  | some p =>
    match lookupPath f p with
    | some (.dset d) =>
      if d.dtype = uint8 then false
      else
        !truthyAttr d.mempty && d.dtype = float64 &&
          (match d.shape with
           | [o, n] => o = 1 && 2 ≤ n
           | _ => false)
    | _ => false

/-- Indices of all candidate time slots, scanning slots `1 … len-1` in order. -/
def all_arrays (f : HFile) (mcosRefs : List (Option String)) : List Nat :=
  (List.range' 1 (mcosRefs.length - 1)).filter (candidate_pred f mcosRefs)

/-! ### Stage 5 — stride selection (`slot_indices`) -/

/-- Python `l[::2]`: the elements at even positions. -/
def everyOther : List Nat → List Nat
  | [] => []
  | [a] => [a]
  | a :: _ :: rest => a :: everyOther rest

/-- Time-slot selection: stride 2 when the metadata promises two columns per
timeseries, at least one timeseries was found, and there are at least
`1.5 · T` candidates (the float comparison `len(all_arrays) >= T * 1.5` is
exact and equals `2·len ≥ 3·T`); otherwise all candidates. -/
def slot_indices (f : HFile) (mcosRefs : List (Option String)) : List Nat :=
  let st := get_timeseries_structure_from_metadata f mcosRefs
  let tsSorted := sortByRefIdx (find_timeseries_recursive f.rootChildren "")
  let arrs := all_arrays f mcosRefs
  if 2 ≤ st.columns_per_ts ∧ 0 < tsSorted.length ∧ 3 * tsSorted.length ≤ 2 * arrs.length
  then everyOther arrs else arrs

/-! ### Stage 6 — allocation (`_build_timeseries_allocation`) -/

/-- Python dict assignment `m[k] = v`: overwrite in place or append. -/
def dictInsert (m : List (String × Nat)) (k : String) (v : Nat) : List (String × Nat) :=
  if m.any (fun p => p.1 = k) then m.map (fun p => if p.1 = k then (k, v) else p)
  else m ++ [(k, v)]

/-- Allocation table mapping composite timeseries paths to MCOS time-slot
indices: empty when `Time_` is missing from the metadata, otherwise the
sorted timeseries at position `i` (for `i < len(slot_indices)`) is assigned
`slot_indices[i]`. -/
def build_timeseries_allocation (f : HFile) (mcosRefs : List (Option String))
    : List (String × Nat) :=
  let st := get_timeseries_structure_from_metadata f mcosRefs
  if !st.has_time then []
  else
    let tsSorted := sortByRefIdx (find_timeseries_recursive f.rootChildren "")
    let slots := slot_indices f mcosRefs
    ((tsSorted.map Prod.fst).zip slots).foldl (fun m p => dictInsert m p.1 p.2) []

/-! ### Stage 7 — data pairing and the fallback -/

/-- The per-slot test of the Stage 7 scan: slot must be a non-null reference
to a `float64` dataset with `n_samples` among its dimensions. -/
def data_slot_test (f : HFile) (mcosRefs : List (Option String)) (idx nSamples : Nat)
    : Option Dset :=
  match mcosRefs.getD idx none with
  | none => none
  | some p =>
    match lookupPath f p with
    | some (.dset d) => if d.dtype = float64 ∧ nSamples ∈ d.shape then some d else none
    | _ => none

/-- Stage 7 scan: slots `time_idx + 1 … time_idx + 19` in order (`range(1, 20)`),
first slot passing `data_slot_test` wins. -/
def find_data_slot (f : HFile) (mcosRefs : List (Option String)) (timeIdx nSamples : Nat)
    : Option Dset :=
  (List.range' 1 19).findSome? (fun off => data_slot_test f mcosRefs (timeIdx + off) nSamples)

/-- Inner scan of the fallback: the 9 slots after `searchIdx` (`range(1, 10)`),
same per-slot test as Stage 7. -/
def fallback_data (f : HFile) (mcosRefs : List (Option String)) (searchIdx n : Nat)
    : Option Dset :=
  (List.range' 1 9).findSome? (fun off => data_slot_test f mcosRefs (searchIdx + off) n)

/-- One step of the fallback's outer scan: slot must hold a `float64` dataset
of shape `(1, n)` with `n ≥ 2`; if so, pair it with the first matching data
slot within the following 9 slots, else move on. -/
def fallback_at (f : HFile) (mcosRefs : List (Option String)) (searchIdx : Nat)
    : Option TsPair :=
  match mcosRefs.getD searchIdx none with
  | none => none
  | some p =>
    match lookupPath f p with
    | some (.dset d) =>
      match d.shape with
      | [o, n] =>
        if d.dtype = float64 ∧ o = 1 ∧ 2 ≤ n then
          match fallback_data f mcosRefs searchIdx n with
          | some dd => some ⟨d.elems, squeezeShape dd.shape, dd.elems⟩
          | none => none
        else none
      | _ => none
    | _ => none

/-- The fallback (`_fallback_timeseries_extraction`): read `ref_idx` from
element `[0, 4]` of the timeseries stub (requires a 2-D stub with at least
one row and `shape[1] ≥ 5`; other shapes raise and the enclosing `except`
returns `None`), then scan slots `max(1, ref_idx - 5) … min(len, ref_idx + 20) - 1`
for a time/data pair. Higher-rank stubs whose `[0, 4]` element happens to be
a size-1 subarray are outside the modelled state space. -/
def fallback_timeseries_extraction (f : HFile) (mcosRefs : List (Option String))
    (tsd : Dset) : Option TsPair :=
  match tsd.shape with
  | [r, c] =>
    if 5 ≤ c ∧ 1 ≤ r then
      match tsd.elems.get? 4 with
      | some refIdx =>
        let start := max 1 (refIdx - 5)
        let stop := min mcosRefs.length (refIdx + 20)
        (List.range' start (stop - start)).findSome? (fallback_at f mcosRefs)
      | none => none
    else none
  | _ => none

/-- Timeseries reconstruction (`process_timeseries`): resolve the path,
require a dataset and an MCOS region, build the allocation, and either follow
the allocated time slot (falling back when the slot is not a dataset, not
`float64`, or empty, or when no data slot is found within 19 slots) or fall
back directly when the path is not allocated. The two `none` arms marked
unreachable model `f[ref]` raising on a null or dangling reference, which
cannot happen for an allocated slot (allocated slots pass the candidate
filter). -/
def process_timeseries (f : HFile) (tsVarname : String) : Option TsPair :=
  match lookupPath f tsVarname with
  | none => none
  | some (.grp _ _ _) => none
  | some (.dset tsd) =>
    match f.mcos with
    | none => none
    | some mcosRefs =>
      let alloc := build_timeseries_allocation f mcosRefs
      match alloc.lookup tsVarname with
      | none => fallback_timeseries_extraction f mcosRefs tsd
      | some timeIdx =>
        match mcosRefs.getD timeIdx none with
        | none => none
        | some p =>
          match lookupPath f p with
          | none => none
          | some (.grp _ _ _) => fallback_timeseries_extraction f mcosRefs tsd
          | some (.dset tobj) =>
            if tobj.dtype ≠ float64 then fallback_timeseries_extraction f mcosRefs tsd
            else if tobj.shape.prod = 0 then fallback_timeseries_extraction f mcosRefs tsd
            else
              let nSamples :=
                if tobj.shape.length = 2 then tobj.shape.getD 1 0 else tobj.shape.getD 0 0
              match find_data_slot f mcosRefs timeIdx nSamples with
              | some dob => some ⟨tobj.elems, squeezeShape dob.shape, dob.elems⟩
              | none => fallback_timeseries_extraction f mcosRefs tsd

/-! ### String decoding (`decode_string`) -/

/-- Little-endian byte serialisation of one element at the given byte width. -/
def bytesOfElem (width v : Nat) : List Nat :=
  (List.range width).map (fun k => v / 256 ^ k % 256)

/-- Little-endian byte buffer of a dataset (`ds[:].tobytes()`); byte
serialisation is modelled for integer-kind dtypes, which is what the
`char`/`string` datasets reaching this path carry. -/
def to_bytes_le (d : Dset) : List Nat :=
  d.elems.flatMap (bytesOfElem (d.dtype.bits / 8))

/-- Group a byte list into little-endian 16-bit units; a trailing odd byte is
an incomplete unit which the `ignore` error handler drops. -/
def utf16leUnits : List Nat → List Nat
  | b0 :: b1 :: rest => (b0 + 256 * b1) :: utf16leUnits rest
  | _ => []

/-- Is the unit a UTF-16 high surrogate. -/
def isHighSurrogate (u : Nat) : Bool := 0xD800 ≤ u && u ≤ 0xDBFF

/-- Is the unit a UTF-16 low surrogate. -/
def isLowSurrogate (u : Nat) : Bool := 0xDC00 ≤ u && u ≤ 0xDFFF

/-- UTF-16 unit-sequence decoding with Python's `errors='ignore'`: surrogate
pairs combine, lone surrogates are dropped, everything else passes through. -/
def utf16Combine : List Nat → List Nat
  | [] => []
  | [u] => if isHighSurrogate u || isLowSurrogate u then [] else [u]
  | u :: u2 :: rest =>
    if isHighSurrogate u then
      if isLowSurrogate u2 then
        (0x10000 + (u - 0xD800) * 0x400 + (u2 - 0xDC00)) :: utf16Combine rest
      else utf16Combine (u2 :: rest)
    else if isLowSurrogate u then utf16Combine (u2 :: rest)
    else u :: utf16Combine (u2 :: rest)

/-- Decode a MATLAB `char`/`string` dataset to a list of codepoints: any
unsigned dtype kind takes the per-unit `chr` path (the source comment says
uint16 but the test is `dtype.kind == 'u'`), everything else decodes the raw
bytes as UTF-16LE with errors ignored. -/
def decode_string (d : Dset) : List Nat :=
  if d.dtype.kind = .u then d.elems
  else utf16Combine (utf16leUnits (to_bytes_le d))

/-- Strip one trailing NUL codepoint if present. -/
def stripTrailingNul (l : List Nat) : List Nat :=
  if l.getLast? = some 0 then l.dropLast else l

/-- UTF-16 unit-sequence decoding with `errors='replace'`: like
`utf16Combine` but each malformed unit becomes U+FFFD. -/
def utf16CombineReplace : List Nat → List Nat
  | [] => []
  | [u] => if isHighSurrogate u || isLowSurrogate u then [0xFFFD] else [u]
  | u :: u2 :: rest =>
    if isHighSurrogate u then
      if isLowSurrogate u2 then
        (0x10000 + (u - 0xD800) * 0x400 + (u2 - 0xDC00)) :: utf16CombineReplace rest
      else 0xFFFD :: utf16CombineReplace (u2 :: rest)
    else if isLowSurrogate u then 0xFFFD :: utf16CombineReplace (u2 :: rest)
    else u :: utf16CombineReplace (u2 :: rest)

/-- Modelled from the words of claim C5, not from the source: only an
unsigned 16-bit dtype takes the per-unit path, malformed UTF-16 yields
replacement characters, and a trailing NUL is stripped. Used to exhibit the
divergence between the claim and `decode_string`. -/
def decode_string_claimed (d : Dset) : List Nat :=
  stripTrailingNul
    (if d.dtype = ⟨.u, 16⟩ then d.elems
     else utf16CombineReplace (utf16leUnits (to_bytes_le d)))

/-! ### Generic value decoding (`process_dataset` and friends)

The four helpers recurse through object references; Python bounds that
recursion by its call stack, the model by an explicit `fuel` argument that
every helper decrements (`Value.crash` on exhaustion stands for the stack
overflow a cyclic reference chain would cause). -/

/-- MATLAB classes taking the numeric array path. -/
def numericClasses : List String :=
  ["double", "single", "int8", "int16", "int32", "int64",
   "uint8", "uint16", "uint32", "uint64", "logical"]

/-- The numeric array path: 1-D data is returned as is; data with at most one
non-singleton axis is squeezed; anything else is transposed (axes reversed,
elements reordered). -/
def numericResult (d : Dset) : NpArray :=
  let a : NpArray := ⟨d.shape, d.elems⟩
  if d.shape.length = 1 then a
  else if d.shape.length - 1 ≤ d.shape.count 1 then npSqueeze a
  else npTranspose a

mutual

/-- Dispatch on the `MATLAB_class` attribute: empty flag first, then
char/string, cell, numeric, struct; unknown classes return the raw buffer. -/
def process_dataset (fuel : Nat) (f : HFile) (d : Dset) : Value :=
  match fuel with
  | 0 => Value.crash
  | fuel + 1 =>
    if truthyAttr d.mempty then Value.empty
    else if d.mclass = some "char" ∨ d.mclass = some "string" then
      Value.strV (decode_string d)
    else if d.mclass = some "cell" then process_cell_array fuel f d
    else if (match d.mclass with
             | some c => numericClasses.contains c
             | none => false) then
      Value.numeric (numericResult d)
    else if d.mclass = some "struct" then process_struct fuel f d
    else Value.raw d

/-- Cell arrays: dereference each entry in stored order, decoding datasets
and groups recursively and mapping null references to `None`; non-reference
cell datasets return their buffer. -/
def process_cell_array (fuel : Nat) (f : HFile) (d : Dset) : Value :=
  match fuel with
  | 0 => Value.crash
  | fuel + 1 =>
    if d.dtype.kind = .ref then
      Value.cellV (d.refs.map (fun r =>
        match r with
        | none => Value.noneV
        | some p =>
          match lookupPath f p with
          | some (.dset dd) => process_dataset fuel f dd
          | some (.grp g2 _ ch2) => process_group fuel f g2 ch2
          | none => Value.crash))
    else Value.numeric ⟨d.shape, d.elems⟩

/-- Structs stored as reference datasets: dereference `[0, 0]` and recurse
into the resulting group; a falsy (absent or null) reference yields `{}`;
shapes on which `ds[0, 0]` raises crash (the source has no handler here). -/
def process_struct (fuel : Nat) (f : HFile) (d : Dset) : Value :=
  match fuel with
  | 0 => Value.crash
  | fuel + 1 =>
    if d.dtype.kind = .ref then
      match d.shape with
      | [] => Value.crash
      | r :: rest =>
        if 0 < r then
          match rest with
          | c :: _ =>
            if 0 < c then
              match d.refs.getD 0 none with
              | none => Value.structV []
              | some p =>
                match lookupPath f p with
                | some (.grp g2 _ ch2) => process_group fuel f g2 ch2
                | some (.dset _) => Value.structV []
                | none => Value.crash
            else Value.crash
          | [] => Value.crash
        else Value.structV []
    else Value.numeric ⟨d.shape, d.elems⟩

/-- Groups (structs): decode every child, handing nested timeseries their
composite path `grp.name + "/" + key` so they can locate themselves in the
file-wide ordinal space; a failed timeseries reconstruction degrades to
`process_dataset` on the stub. -/
def process_group (fuel : Nat) (f : HFile) (gname : String)
    (children : NodeList) : Value :=
  match fuel with
  | 0 => Value.crash
  | fuel + 1 =>
    Value.structV (children.toList.map (fun kv =>
      (kv.1,
        match kv.2 with
        | .dset d =>
          if d.mclass = some "timeseries" then
            match process_timeseries f (gname ++ "/" ++ kv.1) with
            | some p => Value.tsPair p
            | none => process_dataset fuel f d
          else process_dataset fuel f d
        | .grp g2 _ ch2 => process_group fuel f g2 ch2)))

end

/-- Top-level non-internal names, in iteration order
(`[k for k in f.keys() if not k.startswith('#')]`). -/
def top_level_vars (f : HFile) : List String :=
  (f.rootChildren.toList.map Prod.fst).filter (fun k => !isInternalName k)

/-- The public entry point `read_matlab_variable`: unknown names raise the
variable-not-found `ValueError` carrying the available-names list; a node of
class `timeseries` goes through reconstruction with the raw buffer as
fallback (`var[:]` on a *group* of class timeseries would raise); groups
decode as structs and datasets through `process_dataset`. -/
def read_matlab_variable (fuel : Nat) (f : HFile) (varName : String) : ReadResult :=
  match lookupPath f varName with
  | none => .err (top_level_vars f)
  | some var =>
    let mclass : Option String :=
      match var with
      | .grp _ gc _ => some (gc.getD "struct")
      | .dset d => d.mclass
    if mclass = some "timeseries" then
      match process_timeseries f varName with
      | some p => .value (.tsPair p)
      | none =>
        match var with
        | .dset d => .value (.raw d)
        | .grp _ _ _ => .crash
    else
      match var with
      | .grp g _ ch => .value (process_group fuel f g ch)
      | .dset d => .value (process_dataset fuel f d)

/-- The allocation table consulted while reading `tsVarname`, as computed at
the top of `process_timeseries` (`some` exactly when the computation is
reached: the path resolves to a dataset and an MCOS region exists). -/
def allocation_used (f : HFile) (tsVarname : String) : Option (List (String × Nat)) :=
  match lookupPath f tsVarname with
  | some (.dset _) =>
    match f.mcos with
    | some refs => some (build_timeseries_allocation f refs)
    | _ => none
  | _ => none

/-! ### Concrete model files used by witnesses and counterexamples -/

/-- Metadata blob carrying `"Time_"` NUL `"Data_"`. -/
def blobTD : Dset :=
  ⟨[11], uint8, [84, 105, 109, 101, 95, 0, 68, 97, 116, 97, 95], [], none, none⟩

/-- Metadata blob carrying only `"Data_"`. -/
def blobD : Dset := ⟨[5], uint8, [68, 97, 116, 97, 95], [], none, none⟩

/-- A canonical time payload: `float64`, shape `(1, 3)`. -/
def timeDset : Dset := ⟨[1, 3], float64, [10, 20, 30], [], some "double", none⟩

/-- A data payload of the same shape. -/
def dataDset : Dset := ⟨[1, 3], float64, [7, 8, 9], [], some "double", none⟩

/-- A top-level timeseries stub with the given reference index at `[0, 4]`. -/
def tsStub (ridx : Nat) : Dset :=
  ⟨[1, 5], ⟨.u, 32⟩, [0, 0, 0, 0, ridx], [], some "timeseries", none⟩

/-- The shared MCOS first-row reference vector: blob, time, data. -/
def mcosA : List (Option String) :=
  [some "#refs#/m", some "#refs#/t", some "#refs#/d"]

/-- The `#refs#` group holding blob `m`, time `t` and data `d`. -/
def refsGrpA : Node :=
  .grp "#refs#" none (.ofList
    [("d", .dset dataDset), ("m", .dset blobTD), ("t", .dset timeDset)])

/-- File with one timeseries `sig` and a well-formed MCOS region. -/
def fileA : HFile :=
  { rootChildren := .ofList [("#refs#", refsGrpA), ("sig", .dset (tsStub 1))]
    mcos := some mcosA }

/-- File with the same MCOS region but not a single timeseries. -/
def fileB : HFile :=
  { rootChildren := .ofList [("#refs#", refsGrpA)]
    mcos := some mcosA }

/-- The `#refs#` group whose metadata blob lacks `Time_`. -/
def refsGrpC : Node :=
  .grp "#refs#" none (.ofList
    [("d", .dset dataDset), ("m", .dset blobD), ("t", .dset timeDset)])

/-- File whose metadata lacks `Time_` but whose payloads let the fallback succeed. -/
def fileC : HFile :=
  { rootChildren := .ofList [("#refs#", refsGrpC), ("sig", .dset (tsStub 2))]
    mcos := some mcosA }

/-- File whose metadata lacks `Time_` and whose MCOS region holds no payloads,
so the fallback fails as well. -/
def fileD : HFile :=
  { rootChildren := .ofList
      [("#refs#", .grp "#refs#" none (.ofList [("m", .dset blobD)])),
       ("sig", .dset (tsStub 2))]
    mcos := some [some "#refs#/m"] }

/-- A plain 1-D double vector. -/
def dblVec : Dset := ⟨[3], float64, [1, 2, 3], [], some "double", none⟩

/-- File with a struct group `g` holding the dataset `x`. -/
def fileE : HFile :=
  ⟨.ofList [("g", .grp "g" none (.ofList [("x", .dset dblVec)]))], none⟩

/-- File with no content at all. -/
def fileZ : HFile := ⟨.nil, none⟩

/-- A MATLAB scalar: declared shape `1×1`. -/
def scalarD : Dset := ⟨[1, 1], float64, [5], [], some "double", none⟩

/-- A `char` dataset of uint16 units `H` followed by a NUL. -/
def charU16 : Dset := ⟨[1, 2], ⟨.u, 16⟩, [72, 0], [], some "char", none⟩

/-- A dataset flagged empty by `MATLAB_empty = 1`. -/
def emptyD : Dset := ⟨[0, 0], float64, [], [], some "double", some 1⟩

/-- An HDF5 row-major `2×3` numeric dataset holding `0..5`
(MATLAB-declared shape `3×2`). -/
def d23 : Dset := ⟨[2, 3], float64, [0, 1, 2, 3, 4, 5], [], some "double", none⟩

/-- The timeseries list of Stages 2–3: all `(composite path, ref_idx)` pairs
sorted ascending by reference index (`ts_sorted` in the source). -/
def ts_sorted (f : HFile) : List (String × Nat) :=
  sortByRefIdx (find_timeseries_recursive f.rootChildren "")

/-- One MCOS reference is well formed: when it resolves to a dataset, the
element buffer has exactly as many entries as the shape declares. -/
def wfRefOk (f : HFile) (r : Option String) : Bool :=
  match r with
  | none => true
  | some p =>
    match lookupPath f p with
    | some (.dset d) => d.elems.length == d.shape.prod
    | _ => true

/-- Every MCOS reference of the vector is well formed (true of any real HDF5
file, where a dataset's buffer always matches its shape). -/
def WfRefs (f : HFile) (refs : List (Option String)) : Bool :=
  refs.all (wfRefOk f)

/-! ### Helper lemmas -/

/-- A successful `findSome?` is witnessed by a first position: the element
there succeeds and every earlier element fails. -/
theorem findSome?_first {α β : Type} (g : α → Option β) :
    ∀ (l : List α) (b : β), l.findSome? g = some b →
      ∃ i, ∃ hi : i < l.length, g l[i] = some b ∧
        ∀ j, ∀ _ : j < l.length, j < i → g l[j] = none
  | a :: l, b, h => by
    rw [List.findSome?_cons] at h
    cases hg : g a with
    | some b' =>
      rw [hg] at h
      refine ⟨0, by simp, ?_, fun j hj hji => absurd hji (Nat.not_lt_zero j)⟩
      simpa using hg.trans h
    | none =>
      rw [hg] at h
      obtain ⟨i, hi, h1, h2⟩ := findSome?_first g l b h
      refine ⟨i + 1, by simpa using hi, by simpa using h1, fun j hj hji => ?_⟩
      match j with
      | 0 => exact hg
      | j + 1 => exact h2 j (by simpa using hj) (by omega)

/-- `findSome?` over `range' s n`: a success has a first successful index. -/
theorem findSome?_range'_first {β : Type} (g : Nat → Option β) (s n : Nat) (b : β)
    (h : (List.range' s n).findSome? g = some b) :
    ∃ k, s ≤ k ∧ k < s + n ∧ g k = some b ∧ ∀ k', s ≤ k' → k' < k → g k' = none := by
  obtain ⟨i, hi, h1, h2⟩ := findSome?_first g (List.range' s n) b h
  rw [List.length_range'] at hi
  rw [List.getElem_range'] at h1
  refine ⟨s + 1 * i, by omega, by omega, h1, fun k' hk1 hk2 => ?_⟩
  have hj : k' - s < n := by omega
  have := h2 (k' - s) (by rw [List.length_range']; omega) (by omega)
  rw [List.getElem_range'] at this
  have hk' : s + 1 * (k' - s) = k' := by omega
  rwa [hk'] at this

/-- Membership in the result of a `dictInsert`. -/
theorem mem_dictInsert {m : List (String × Nat)} {k : String} {v : Nat} {x : String × Nat}
    (h : x ∈ dictInsert m k v) : x ∈ m ∨ x = (k, v) := by
  unfold dictInsert at h
  split at h
  · obtain ⟨y, hy, hxy⟩ := List.mem_map.1 h
    by_cases hk : y.1 = k
    · rw [if_pos hk] at hxy; exact Or.inr hxy.symm
    · rw [if_neg hk] at hxy; exact Or.inl (hxy ▸ hy)
  · rcases List.mem_append.1 h with h1 | h1
    · exact Or.inl h1
    · exact Or.inr (by simpa using h1)

/-- Membership in a dict built by folding `dictInsert` over pairs. -/
theorem mem_foldl_dictInsert :
    ∀ (pairs acc : List (String × Nat)) (x : String × Nat),
      x ∈ pairs.foldl (fun m p => dictInsert m p.1 p.2) acc → x ∈ acc ∨ x ∈ pairs
  | [], _, _, h => Or.inl h
  | (k, v) :: rest, acc, x, h => by
    rcases mem_foldl_dictInsert rest (dictInsert acc k v) x h with h1 | h1
    · rcases mem_dictInsert h1 with h2 | h2
      · exact Or.inl h2
      · exact Or.inr (by simp [h2])
    · exact Or.inr (List.mem_cons_of_mem _ h1)

/-- A successful association-list lookup means the pair is in the list. -/
theorem lookup_mem : ∀ {l : List (String × Nat)} {k : String} {v : Nat},
    l.lookup k = some v → (k, v) ∈ l
  | (a, b) :: t, k, v, h => by
    rw [List.lookup_cons] at h
    cases hk : (k == a) with
    | true =>
      rw [hk] at h
      have : b = v := by simpa using h
      exact this ▸ (eq_of_beq hk) ▸ List.mem_cons_self _ _
    | false =>
      rw [hk] at h
      exact List.mem_cons_of_mem _ (lookup_mem h)

/-- Lookup fails when no key matches. -/
theorem lookup_eq_none_of_keys : ∀ {l : List (String × Nat)} {k : String},
    (∀ x ∈ l, x.1 ≠ k) → l.lookup k = none
  | [], _, _ => rfl
  | (a, b) :: t, k, h => by
    rw [List.lookup_cons]
    have ha : ¬(k == a) = true := by
      intro hk
      exact h (a, b) (List.mem_cons_self _ _) ((eq_of_beq hk).symm)
    rw [Bool.not_eq_true] at ha
    rw [ha]
    exact lookup_eq_none_of_keys (fun x hx => h x (List.mem_cons_of_mem _ hx))

/-- Folding `dictInsert` over pairs with globally distinct keys is plain
concatenation. -/
theorem foldl_dictInsert_eq :
    ∀ (pairs acc : List (String × Nat)),
      ((acc ++ pairs).map Prod.fst).Nodup →
      pairs.foldl (fun m p => dictInsert m p.1 p.2) acc = acc ++ pairs
  | [], acc, _ => by simp
  | (k, v) :: rest, acc, h => by
    have hnd : ((acc.map Prod.fst) ++ (k :: rest.map Prod.fst)).Nodup := by
      simpa using h
    have hdisj := (List.nodup_append.1 hnd).2.2
    have hk : ¬acc.any (fun p => p.1 = k) = true := by
      intro hany
      obtain ⟨x, hx, hxk⟩ := List.any_eq_true.1 hany
      exact hdisj (List.mem_map.2 ⟨x, hx, of_decide_eq_true hxk⟩) (by simp)
    have hins : dictInsert acc k v = acc ++ [(k, v)] := by
      unfold dictInsert
      rw [if_neg hk]
    rw [List.foldl_cons, hins,
      foldl_dictInsert_eq rest (acc ++ [(k, v)]) (by simpa using h)]
    simp

/-- First projections of a zip form the truncated left list. -/
theorem map_fst_zip_eq {α β : Type} :
    ∀ (l₁ : List α) (l₂ : List β), (l₁.zip l₂).map Prod.fst = l₁.take l₂.length
  | [], _ => by simp
  | _ :: _, [] => by simp
  | a :: t₁, b :: t₂ => by
    simp [List.zip_cons_cons, map_fst_zip_eq t₁ t₂]

/-- Second projections of a zip form the truncated right list. -/
theorem map_snd_zip_eq {α β : Type} :
    ∀ (l₁ : List α) (l₂ : List β), (l₁.zip l₂).map Prod.snd = l₂.take l₁.length
  | [], _ => by simp
  | _ :: _, [] => by simp
  | a :: t₁, b :: t₂ => by
    simp [List.zip_cons_cons, map_snd_zip_eq t₁ t₂]

/-- Association-list lookup over a zip with distinct keys, by position. -/
theorem lookup_zip_getElem :
    ∀ (names : List String) (slots : List Nat), names.Nodup →
      ∀ i, ∀ hi : i < names.length, ∀ hs : i < slots.length,
        (names.zip slots).lookup names[i] = some slots[i]
  | x :: ns, y :: ss, hnd, 0, hi, hs => by
    simp [List.zip_cons_cons, List.lookup_cons]
  | x :: ns, y :: ss, hnd, i + 1, hi, hs => by
    have hi2 : i < ns.length := by simpa using hi
    rw [List.zip_cons_cons, List.getElem_cons_succ, List.getElem_cons_succ, List.lookup_cons]
    have hne : ¬(ns[i] == x) = true := by
      intro hbeq
      exact (List.nodup_cons.1 hnd).1 ((eq_of_beq hbeq) ▸ List.getElem_mem _)
    rw [Bool.not_eq_true] at hne
    rw [hne]
    exact lookup_zip_getElem ns ss (List.nodup_cons.1 hnd).2 i hi2 (by simpa using hs)

/-- In a duplicate-free list, the element at position `i` does not appear
among the first `k ≤ i` elements. -/
theorem getElem_not_mem_take {α : Type} {l : List α} (hnd : l.Nodup) {i k : Nat}
    (hi : i < l.length) (hk : k ≤ i) : l[i] ∉ l.take k := by
  intro hmem
  obtain ⟨j, hj, hje⟩ := List.mem_iff_getElem.1 hmem
  have hjk : j < k := by
    have := hj
    rw [List.length_take] at this
    omega
  rw [List.getElem_take] at hje
  have : j = i := (List.Nodup.getElem_inj_iff hnd).1 hje
  omega

/-- `everyOther` is a sublist. -/
theorem everyOther_sublist : ∀ l : List Nat, (everyOther l).Sublist l
  | [] => by simp [everyOther]
  | [a] => by simp [everyOther]
  | a :: b :: rest => by
    rw [everyOther]
    exact List.Sublist.cons₂ a (List.Sublist.cons b (everyOther_sublist rest))

/-- `everyOther` takes exactly the elements at even positions. -/
theorem everyOther_getElem? : ∀ (l : List Nat) (i : Nat), (everyOther l)[i]? = l[2 * i]?
  | [], i => by simp [everyOther]
  | [a], 0 => by simp [everyOther]
  | [a], i + 1 => by
    rw [everyOther]
    rw [List.getElem?_eq_none (by simp), List.getElem?_eq_none (by simp; omega)]
  | a :: b :: rest, 0 => by simp [everyOther]
  | a :: b :: rest, i + 1 => by
    rw [everyOther]
    have h2 : 2 * (i + 1) = (2 * i + 1) + 1 := by omega
    rw [h2, List.getElem?_cons_succ, List.getElem?_cons_succ, List.getElem?_cons_succ]
    exact everyOther_getElem? rest i

/-- Sum of a constant-valued map. -/
theorem sum_map_const {α : Type} : ∀ (l : List α) (c : Nat),
    (l.map (fun _ => c)).sum = l.length * c
  | [], _ => by simp
  | a :: t, c => by
    simp [sum_map_const t c, Nat.succ_mul, Nat.add_comm]

/-- `allIndices` enumerates exactly `prod s` multi-indices. -/
theorem allIndices_length : ∀ s : List Nat, (allIndices s).length = s.prod
  | [] => by simp [allIndices]
  | d :: s => by
    rw [allIndices, List.length_flatMap]
    have hc : (List.range d).map (List.length ∘ fun ix => (allIndices s).map (ix :: ·)) =
        (List.range d).map (fun _ => s.prod) := by
      apply List.map_congr_left
      intro a _
      simp [allIndices_length s]
    rw [hc, sum_map_const, List.length_range, List.prod_cons]

/-- A valid multi-index has flat index below the shape's product. -/
theorem natIndex_lt : ∀ {ix s : List Nat}, List.Forall₂ (· < ·) ix s →
    natIndex s ix < s.prod
  | [], [], _ => by simp [natIndex]
  | a :: ixt, b :: st, List.Forall₂.cons hab hrest => by
    rw [natIndex, List.prod_cons]
    calc a * st.prod + natIndex st ixt < a * st.prod + st.prod :=
          Nat.add_lt_add_left (natIndex_lt hrest) _
      _ = (a + 1) * st.prod := by ring
      _ ≤ b * st.prod := Nat.mul_le_mul_right _ hab

/-- Indexing a `flatMap` whose blocks share one length. -/
theorem flatMap_getElem? {α β : Type} (g : α → List β) (L : Nat) :
    ∀ (l : List α) (i k : Nat), (∀ a ∈ l, (g a).length = L) → k < L →
      ∀ hi : i < l.length, (l.flatMap g)[i * L + k]? = (g l[i])[k]?
  | a :: t, 0, k, hall, hk, hi => by
    rw [List.flatMap_cons, List.getElem?_append]
    rw [if_pos (by rw [hall a (List.mem_cons_self _ _)]; simpa using hk)]
    simp
  | a :: t, i + 1, k, hall, hk, hi => by
    rw [List.flatMap_cons,
      List.getElem?_append_right (by rw [hall a (List.mem_cons_self _ _)]; nlinarith)]
    have ha : (i + 1) * L + k - (g a).length = i * L + k := by
      rw [hall a (List.mem_cons_self _ _)]; ring_nf; omega
    rw [ha, List.getElem_cons_succ]
    exact flatMap_getElem? g L t i k (fun x hx => hall x (List.mem_cons_of_mem _ hx)) hk
      (by simpa using hi)

/-- The multi-index enumeration inverts `natIndex` on valid indices. -/
theorem allIndices_getElem? : ∀ {ix s : List Nat}, List.Forall₂ (· < ·) ix s →
    (allIndices s)[natIndex s ix]? = some ix
  | [], [], _ => by simp [allIndices, natIndex]
  | a :: ixt, b :: st, List.Forall₂.cons hab hrest => by
    rw [allIndices, natIndex]
    rw [flatMap_getElem? _ st.prod (List.range b) a (natIndex st ixt)
      (fun x _ => by simp [allIndices_length st]) (natIndex_lt hrest)
      (by simpa using hab)]
    rw [List.getElem_range, List.getElem?_map, allIndices_getElem? hrest]
    rfl

/-- Transposing reverses the multi-index: the transposed array at `ix` is the
original array at `ix.reverse`. -/
theorem npTranspose_getIdx (a : NpArray) (ix : List Nat)
    (h : List.Forall₂ (· < ·) ix a.shape.reverse) :
    (npTranspose a).getIdx ix = a.getIdx ix.reverse := by
  show ((allIndices a.shape.reverse).map (fun jx => a.getIdx jx.reverse)).getD
      (natIndex a.shape.reverse ix) 0 = a.getIdx ix.reverse
  rw [List.getD_eq_getElem?_getD, List.getElem?_map, allIndices_getElem? h]
  rfl

/-- When all axes but at most one are singletons, squeezing leaves rank at
most one. -/
theorem squeezeShape_length_le {s : List Nat} (h : s.length - 1 ≤ s.count 1) :
    (squeezeShape s).length ≤ 1 := by
  have h1 : (squeezeShape s).length = s.countP (fun d => d ≠ 1) := by
    unfold squeezeShape
    exact (List.countP_eq_length_filter _ _).symm
  have h2 := List.length_eq_countP_add_countP (fun x => x == 1) s
  beta_reduce at h2
  have h3 : s.countP (fun a => decide ¬((a == 1) = true)) =
      s.countP (fun d => d ≠ 1) := by
    apply List.countP_congr
    intro x _
    simp
  have h4 := List.count_eq_countP 1 s
  omega

/-- When additionally some axis is not a singleton, squeezing yields rank
exactly one. -/
theorem squeezeShape_length_eq_one {s : List Nat} (h : s.length - 1 ≤ s.count 1)
    (hx : ∃ k ∈ s, k ≠ 1) : (squeezeShape s).length = 1 := by
  obtain ⟨k, hk, hk1⟩ := hx
  have h1 : k ∈ squeezeShape s := by
    unfold squeezeShape
    exact List.mem_filter.2 ⟨hk, by simpa using hk1⟩
  have h2 : 0 < (squeezeShape s).length := List.length_pos.2 (List.ne_nil_of_mem h1)
  have h3 := squeezeShape_length_le h
  omega

/-! ### Lemmas about the allocation pipeline -/

/-- Equation lemma for `slot_indices` with the `let`s expanded. -/
theorem slot_indices_eq (f : HFile) (refs : List (Option String)) :
    slot_indices f refs =
      if 2 ≤ (get_timeseries_structure_from_metadata f refs).columns_per_ts ∧
          0 < (ts_sorted f).length ∧
          3 * (ts_sorted f).length ≤ 2 * (all_arrays f refs).length
      then everyOther (all_arrays f refs) else all_arrays f refs := rfl

/-- Equation lemma for `build_timeseries_allocation` with the `let`s expanded. -/
theorem build_timeseries_allocation_eq (f : HFile) (refs : List (Option String)) :
    build_timeseries_allocation f refs =
      if (get_timeseries_structure_from_metadata f refs).has_time = false then []
      else (((ts_sorted f).map Prod.fst).zip (slot_indices f refs)).foldl
        (fun m p => dictInsert m p.1 p.2) [] := by
  unfold build_timeseries_allocation ts_sorted
  cases h : (get_timeseries_structure_from_metadata f refs).has_time <;> simp [h]

/-- Every selected time slot is a candidate slot. -/
theorem slot_indices_subset {f : HFile} {refs : List (Option String)} :
    ∀ t ∈ slot_indices f refs, t ∈ all_arrays f refs := by
  intro t ht
  rw [slot_indices_eq] at ht
  split at ht
  · exact (everyOther_sublist _).mem ht
  · exact ht

/-- Unfolding of membership in the Stage 4 candidate list. -/
theorem candidate_of_mem {f : HFile} {refs : List (Option String)} {i : Nat}
    (h : i ∈ all_arrays f refs) :
    1 ≤ i ∧ i < refs.length ∧
    ∃ p tobj, refs.getD i none = some p ∧ lookupPath f p = some (.dset tobj) ∧
      tobj.dtype = float64 ∧ truthyAttr tobj.mempty = false ∧
      ∃ n, tobj.shape = [1, n] ∧ 2 ≤ n := by
  unfold all_arrays at h
  have hr := (List.mem_filter.1 h).1
  have hp := (List.mem_filter.1 h).2
  have hrange : 1 ≤ i ∧ i < refs.length := by
    have := List.mem_range'_1.1 hr
    omega
  refine ⟨hrange.1, hrange.2, ?_⟩
  unfold candidate_pred at hp
  split at hp
  · exact absurd hp (by simp)
  next p hgd =>
    split at hp
    next tobj hlp =>
      split at hp
      · exact absurd hp (by simp)
      next hu8 =>
        simp only [Bool.and_eq_true, Bool.not_eq_true', decide_eq_true_eq] at hp
        obtain ⟨⟨hemp, hdt⟩, hshape⟩ := hp
        split at hshape
        next o n hsh =>
          simp only [Bool.and_eq_true, decide_eq_true_eq] at hshape
          exact ⟨p, tobj, hgd, hlp, hdt, hemp,
            n, by rw [hsh, hshape.1], hshape.2⟩
        · exact absurd hshape (by simp)
    · exact absurd hp (by simp)

/-- A slot found in the allocation table is a selected, hence candidate, slot. -/
theorem alloc_slot_mem {f : HFile} {refs : List (Option String)} {name : String} {t : Nat}
    (h : (build_timeseries_allocation f refs).lookup name = some t) :
    t ∈ slot_indices f refs ∧ t ∈ all_arrays f refs := by
  rw [build_timeseries_allocation_eq] at h
  split at h
  · simp [List.lookup] at h
  · have hmem : (name, t) ∈ ((ts_sorted f).map Prod.fst).zip (slot_indices f refs) := by
      rcases mem_foldl_dictInsert _ _ _ (lookup_mem h) with h1 | h1
      · simp at h1
      · exact h1
    have ht : t ∈ slot_indices f refs := (List.of_mem_zip hmem).2
    exact ⟨ht, slot_indices_subset t ht⟩

/-- Extract the buffer-length invariant for one resolved dataset. -/
theorem wfRefs_spec {f : HFile} {refs : List (Option String)} (hwf : WfRefs f refs = true)
    {i : Nat} {p : String} {d : Dset} (hget : refs.getD i none = some p)
    (hlp : lookupPath f p = some (.dset d)) : d.elems.length = d.shape.prod := by
  have hmem : (some p) ∈ refs := by
    rw [List.getD_eq_getElem?_getD] at hget
    cases hi : refs[i]? with
    | none => rw [hi] at hget; simp at hget
    | some r =>
      rw [hi] at hget
      simp only [Option.getD_some] at hget
      obtain ⟨hlen, hre⟩ := List.getElem?_eq_some.1 hi
      exact hget ▸ hre ▸ List.getElem_mem hlen
  have h2 := List.all_eq_true.1 hwf _ hmem
  have h3 : (match lookupPath f p with
      | some (.dset d) => d.elems.length == d.shape.prod
      | _ => true) = true := h2
  rw [hlp] at h3
  exact Nat.eq_of_beq_eq_true (by simpa using h3)

/-- With an allocated and valid time slot, `process_timeseries` reduces to
the Stage 7 scan, falling back only when the scan fails. -/
theorem process_timeseries_main {f : HFile} {refs : List (Option String)} {name : String}
    {tsd tobj : Dset} {timeIdx N : Nat} {p : String}
    (h1 : lookupPath f name = some (.dset tsd))
    (h2 : f.mcos = some refs)
    (h3 : (build_timeseries_allocation f refs).lookup name = some timeIdx)
    (h4 : refs.getD timeIdx none = some p)
    (h5 : lookupPath f p = some (.dset tobj))
    (h6 : tobj.dtype = float64)
    (h7 : tobj.shape = [1, N]) (hN : 2 ≤ N) :
    process_timeseries f name =
      match find_data_slot f refs timeIdx N with
      | some dob => some ⟨tobj.elems, squeezeShape dob.shape, dob.elems⟩
      | none => fallback_timeseries_extraction f refs tsd := by
  unfold process_timeseries
  rw [h1, h2]
  dsimp only
  rw [h3]
  dsimp only
  rw [h4]
  dsimp only
  rw [h5]
  dsimp only
  rw [h6, h7]
  rw [if_neg (by simp)]
  rw [if_neg (by simp; omega)]
  simp

/-- When the requested path is not in the allocation table, the decoder goes
straight to the fallback. -/
theorem process_timeseries_unalloc {f : HFile} {refs : List (Option String)} {name : String}
    {tsd : Dset}
    (h1 : lookupPath f name = some (.dset tsd))
    (h2 : f.mcos = some refs)
    (h3 : (build_timeseries_allocation f refs).lookup name = none) :
    process_timeseries f name = fallback_timeseries_extraction f refs tsd := by
  unfold process_timeseries
  rw [h1, h2]
  dsimp only
  rw [h3]

/-- When the allocated slot fails validation (a group, not `float64`, or an
empty buffer), the decoder goes to the fallback. -/
theorem process_timeseries_badslot {f : HFile} {refs : List (Option String)} {name : String}
    {tsd : Dset} {timeIdx : Nat} {p : String}
    (h1 : lookupPath f name = some (.dset tsd))
    (h2 : f.mcos = some refs)
    (h3 : (build_timeseries_allocation f refs).lookup name = some timeIdx)
    (h4 : refs.getD timeIdx none = some p)
    (h5 : (∃ g gc ch, lookupPath f p = some (.grp g gc ch)) ∨
      (∃ tobj, lookupPath f p = some (.dset tobj) ∧
        (tobj.dtype ≠ float64 ∨ tobj.shape.prod = 0))) :
    process_timeseries f name = fallback_timeseries_extraction f refs tsd := by
  unfold process_timeseries
  rw [h1, h2]
  dsimp only
  rw [h3]
  dsimp only
  rw [h4]
  dsimp only
  rcases h5 with ⟨g, gc, ch, hg⟩ | ⟨tobj, hlp, hbad⟩
  · rw [hg]
  · rw [hlp]
    dsimp only
    rcases hbad with hdt | hprod
    · rw [if_pos hdt]
    · by_cases hdt : tobj.dtype ≠ float64
      · rw [if_pos hdt]
      · rw [if_neg hdt, if_pos hprod]

/-- The public entry point surfaces a successful reconstruction as the pair. -/
theorem read_ts_some {fuel : Nat} {f : HFile} {name : String} {tsd : Dset} {p : TsPair}
    (h1 : lookupPath f name = some (.dset tsd))
    (h2 : tsd.mclass = some "timeseries")
    (h3 : process_timeseries f name = some p) :
    read_matlab_variable fuel f name = .value (.tsPair p) := by
  unfold read_matlab_variable
  rw [h1]
  simp only [h2, if_pos, h3]

/-- The public entry point surfaces a failed reconstruction of a timeseries
dataset as its raw buffer. -/
theorem read_ts_none {fuel : Nat} {f : HFile} {name : String} {tsd : Dset}
    (h1 : lookupPath f name = some (.dset tsd))
    (h2 : tsd.mclass = some "timeseries")
    (h3 : process_timeseries f name = none) :
    read_matlab_variable fuel f name = .value (.raw tsd) := by
  unfold read_matlab_variable
  rw [h1]
  simp only [h2, if_pos, h3]

/-- The candidate list carries no duplicate slot indices. -/
theorem all_arrays_nodup (f : HFile) (refs : List (Option String)) :
    (all_arrays f refs).Nodup :=
  List.Nodup.filter _ (List.nodup_range' _ _)

/-- The selected time slots carry no duplicate indices. -/
theorem slot_indices_nodup (f : HFile) (refs : List (Option String)) :
    (slot_indices f refs).Nodup := by
  rw [slot_indices_eq]
  split
  · exact List.Nodup.sublist (everyOther_sublist _) (all_arrays_nodup f refs)
  · exact all_arrays_nodup f refs

/-! ### Claim theorems -/

/-- C1 (counterexample): in `fileB` the metadata promises two columns per
timeseries and the candidate count `2` trivially meets `1.5 · T` because no
timeseries exists (`T = 0`), yet the code selects every candidate slot, not
the even-position ones as the claim's stride rule requires. -/
theorem claim_C1_counterexample :
    2 ≤ (get_timeseries_structure_from_metadata fileB mcosA).columns_per_ts ∧
    3 * (ts_sorted fileB).length ≤ 2 * (all_arrays fileB mcosA).length ∧
    fileB.mcos = some mcosA ∧
    slot_indices fileB mcosA = [1, 2] ∧
    everyOther (all_arrays fileB mcosA) = [1] ∧
    slot_indices fileB mcosA ≠ everyOther (all_arrays fileB mcosA) :=
  ⟨by decide, by decide, rfl, rfl, rfl, by decide⟩

/-- C1 (amended): Stage 5 stride selection. If `columns_per_ts ≥ 2`, at
least one timeseries was found, and the candidate count is at least
`1.5 · T`, the selected Time slots are exactly the candidates at even
positions (indices 0, 2, 4, …); otherwise every candidate slot is selected.
The claim as frozen omits the `T ≥ 1` conjunct. -/
theorem claim_C1_amended (f : HFile) (refs : List (Option String)) :
    (2 ≤ (get_timeseries_structure_from_metadata f refs).columns_per_ts ∧
        0 < (ts_sorted f).length ∧
        3 * (ts_sorted f).length ≤ 2 * (all_arrays f refs).length →
      ∀ i, (slot_indices f refs)[i]? = (all_arrays f refs)[2 * i]?) ∧
    (¬(2 ≤ (get_timeseries_structure_from_metadata f refs).columns_per_ts ∧
        0 < (ts_sorted f).length ∧
        3 * (ts_sorted f).length ≤ 2 * (all_arrays f refs).length) →
      slot_indices f refs = all_arrays f refs) := by
  constructor
  · intro h i
    rw [slot_indices_eq, if_pos h]
    exact everyOther_getElem? _ i
  · intro h
    rw [slot_indices_eq, if_neg h]

/-- C1 (witness): the stride arm applied to `fileA`, whose one timeseries
and two candidates meet the amended condition. -/
theorem claim_C1_witness :
    (slot_indices fileA mcosA)[0]? = (all_arrays fileA mcosA)[2 * 0]? :=
  (claim_C1_amended fileA mcosA).1 (by decide) 0

/-- C8: Stage 6 allocation. The timeseries at sorted position `i` is
assigned `slot_indices[i]`; positions past `|slot_indices|` stay
unallocated; the allocated slots are `slot_indices` truncated to `T`
entries — a duplicate-free subset of the candidates of size exactly
`min(T, |slot_indices|)`. Distinctness of the composite paths (true of any
HDF5 file) is assumed. -/
theorem claim_C8_allocation {f : HFile} {refs : List (Option String)}
    (hT : (get_timeseries_structure_from_metadata f refs).has_time = true)
    (hnd : ((ts_sorted f).map Prod.fst).Nodup) :
    (∀ i, ∀ hi : i < (ts_sorted f).length, ∀ hs : i < (slot_indices f refs).length,
      (build_timeseries_allocation f refs).lookup ((ts_sorted f)[i].1) =
        some ((slot_indices f refs)[i])) ∧
    (∀ i, ∀ hi : i < (ts_sorted f).length, (slot_indices f refs).length ≤ i →
      (build_timeseries_allocation f refs).lookup ((ts_sorted f)[i].1) = none) ∧
    (build_timeseries_allocation f refs).map Prod.snd =
      (slot_indices f refs).take (ts_sorted f).length ∧
    (∀ t ∈ (build_timeseries_allocation f refs).map Prod.snd, t ∈ all_arrays f refs) ∧
    ((build_timeseries_allocation f refs).map Prod.snd).length =
      min (ts_sorted f).length (slot_indices f refs).length ∧
    ((build_timeseries_allocation f refs).map Prod.snd).Nodup := by
  have halloc : build_timeseries_allocation f refs =
      ((ts_sorted f).map Prod.fst).zip (slot_indices f refs) := by
    rw [build_timeseries_allocation_eq, if_neg (by simp [hT])]
    apply foldl_dictInsert_eq
    rw [List.nil_append, map_fst_zip_eq]
    exact List.Nodup.sublist (List.take_sublist _ _) hnd
  have hsnd : (build_timeseries_allocation f refs).map Prod.snd =
      (slot_indices f refs).take (ts_sorted f).length := by
    rw [halloc, map_snd_zip_eq, List.length_map]
  refine ⟨?_, ?_, hsnd, ?_, ?_, ?_⟩
  · intro i hi hs
    rw [halloc]
    have := lookup_zip_getElem ((ts_sorted f).map Prod.fst) (slot_indices f refs) hnd i
      (by simpa using hi) hs
    rwa [List.getElem_map] at this
  · intro i hi hk
    rw [halloc]
    apply lookup_eq_none_of_keys
    intro x hx hxe
    have hx1 : x.1 ∈ (((ts_sorted f).map Prod.fst).zip (slot_indices f refs)).map Prod.fst :=
      List.mem_map.2 ⟨x, hx, rfl⟩
    rw [map_fst_zip_eq] at hx1
    have hmi : i < ((ts_sorted f).map Prod.fst).length := by simpa using hi
    have hgm : (ts_sorted f)[i].1 = ((ts_sorted f).map Prod.fst)[i] :=
      (List.getElem_map _).symm
    rw [hxe, hgm] at hx1
    exact getElem_not_mem_take hnd (by simpa using hi) hk hx1
  · intro t ht
    rw [hsnd] at ht
    exact slot_indices_subset t (List.Sublist.mem ht (List.take_sublist _ _))
  · rw [hsnd, List.length_take]
  · rw [hsnd]
    exact List.Nodup.sublist (List.take_sublist _ _) (slot_indices_nodup f refs)

/-- C8 (witness): the allocation invariants evaluated on `fileA`. -/
theorem claim_C8_witness :
    (build_timeseries_allocation fileA mcosA).map Prod.snd =
      (slot_indices fileA mcosA).take (ts_sorted fileA).length ∧
    ((build_timeseries_allocation fileA mcosA).map Prod.snd).Nodup :=
  ⟨(@claim_C8_allocation fileA mcosA (by decide) (by decide)).2.2.1,
   (@claim_C8_allocation fileA mcosA (by decide) (by decide)).2.2.2.2.2⟩

/-- C7: determinism. The allocation table consulted by `process_timeseries`
is a function of the file alone — two requests that both reach the
allocation step see the same table — and re-reading any variable yields a
structurally equal value (the embedded decoder is a pure function, mirroring
the absence of mutable state in the source). -/
theorem claim_C7_deterministic {f : HFile} {n₁ n₂ : String}
    {a₁ a₂ : List (String × Nat)}
    (h₁ : allocation_used f n₁ = some a₁) (h₂ : allocation_used f n₂ = some a₂) :
    a₁ = a₂ ∧
    ∀ fuel name, read_matlab_variable fuel f name = read_matlab_variable fuel f name := by
  refine ⟨?_, fun _ _ => rfl⟩
  unfold allocation_used at h₁ h₂
  split at h₁
  case _ =>
    split at h₁
    next refs hm1 =>
      split at h₂
      case _ =>
        split at h₂
        next refs2 hm2 =>
          rw [hm1] at hm2
          obtain rfl : refs = refs2 := Option.some.inj hm2
          rw [← Option.some.inj h₁, ← Option.some.inj h₂]
        next => exact absurd h₂ (by simp)
      case _ => exact absurd h₂ (by simp)
    next => exact absurd h₁ (by simp)
  case _ => exact absurd h₁ (by simp)

/-- C7 (witness): two reads of `sig` from `fileA` see the same table. -/
theorem claim_C7_witness :
    allocation_used fileA "sig" = some [("sig", 1)] ∧
    read_matlab_variable 1 fileA "sig" = read_matlab_variable 1 fileA "sig" :=
  ⟨rfl,
   (@claim_C7_deterministic fileA "sig" "sig" [("sig", 1)] [("sig", 1)] rfl rfl).2 1 "sig"⟩

/-- C9: a dataset whose `MATLAB_empty` attribute is present and non-zero
decodes to `Empty` regardless of its MATLAB class or declared shape: the
empty test precedes all class dispatch in `process_dataset`. -/
theorem claim_C9_empty (fuel : Nat) (f : HFile) (d : Dset) (n : Nat)
    (h1 : d.mempty = some n) (h2 : n ≠ 0) :
    process_dataset (fuel + 1) f d = Value.empty := by
  have ht : truthyAttr d.mempty = true := by
    rw [h1]
    unfold truthyAttr
    simpa using h2
  simp only [process_dataset, ht, if_true]

/-- C9 (witness): the empty-flagged dataset decodes to `Empty`. -/
theorem claim_C9_witness : process_dataset 1 fileZ emptyD = Value.empty :=
  claim_C9_empty 0 fileZ emptyD 1 rfl (by decide)

/-- C6 (counterexample): `"g/x"` is not a top-level variable of `fileE`, yet
`read_matlab_variable` resolves the nested path (`var_name not in f` is a
path test in h5py) and returns the decoded value instead of the
variable-not-found error the claim requires. -/
theorem claim_C6_counterexample :
    ("g/x" ∉ top_level_vars fileE) ∧
    read_matlab_variable 1 fileE "g/x" = .value (.numeric ⟨[3], [1, 2, 3]⟩) ∧
    ∀ l, read_matlab_variable 1 fileE "g/x" ≠ .err l := by
  refine ⟨by decide, rfl, fun l h => ?_⟩
  rw [show read_matlab_variable 1 fileE "g/x" =
    .value (.numeric ⟨[3], [1, 2, 3]⟩) from rfl] at h
  exact ReadResult.noConfusion h

/-- C6 (amended): for every requested name that does not exist as an object
path in the file, `read_matlab_variable` raises the variable-not-found error
listing all top-level non-internal names; the list is alphabetically sorted
whenever the root iteration order is (h5py's default), and non-empty
whenever the file has at least one non-internal name. -/
theorem claim_C6_amended (fuel : Nat) (f : HFile) (name : String)
    (h : lookupPath f name = none) :
    read_matlab_variable fuel f name = .err (top_level_vars f) ∧
    ((f.rootChildren.toList.map Prod.fst).Sorted (· ≤ ·) →
      (top_level_vars f).Sorted (· ≤ ·)) ∧
    ((∃ k ∈ f.rootChildren.toList.map Prod.fst, ¬isInternalName k) →
      top_level_vars f ≠ []) := by
  refine ⟨?_, ?_, ?_⟩
  · unfold read_matlab_variable
    rw [h]
  · intro hs
    exact List.Pairwise.filter _ hs
  · rintro ⟨k, hk, hik⟩ hnil
    have h2 := List.filter_eq_nil_iff.1 hnil k hk
    apply hik
    cases hi : isInternalName k with
    | false => exact absurd (by simp [hi]) h2
    | true => rfl

/-- C6 (witness): a missing name on `fileE` produces the sorted, non-empty
available list `["g"]`. -/
theorem claim_C6_witness :
    read_matlab_variable 1 fileE "zzz" = .err (top_level_vars fileE) ∧
    (top_level_vars fileE).Sorted (· ≤ ·) ∧ top_level_vars fileE ≠ [] := by
  have h := claim_C6_amended 1 fileE "zzz" rfl
  refine ⟨h.1, h.2.1 ?_, h.2.2 ⟨"g", by decide, by decide⟩⟩
  rw [show fileE.rootChildren.toList.map Prod.fst = ["g"] from rfl]
  exact List.sorted_singleton _

/-- Each codepoint emitted by the error-ignoring UTF-16 decoder is either a
unit of the input or an astral-plane codepoint combined from a surrogate
pair; in particular no replacement character is invented. -/
theorem utf16Combine_mem : ∀ (us : List Nat), ∀ c ∈ utf16Combine us,
    c ∈ us ∨ 0x10000 ≤ c
  | [] => by simp [utf16Combine]
  | [u] => by
    intro c hc
    rw [utf16Combine] at hc
    split at hc
    · simp at hc
    · simp only [List.mem_singleton] at hc
      exact Or.inl (by simp [hc])
  | u :: u2 :: rest => by
    intro c hc
    rw [utf16Combine] at hc
    split at hc
    · split at hc
      · rcases List.mem_cons.1 hc with h | h
        · right
          rw [h]
          omega
        · rcases utf16Combine_mem rest c h with h1 | h1
          · exact Or.inl (by simp [h1])
          · exact Or.inr h1
      · rcases utf16Combine_mem (u2 :: rest) c hc with h1 | h1
        · exact Or.inl (List.mem_cons_of_mem _ h1)
        · exact Or.inr h1
    · split at hc
      · rcases utf16Combine_mem (u2 :: rest) c hc with h1 | h1
        · exact Or.inl (List.mem_cons_of_mem _ h1)
        · exact Or.inr h1
      · rcases List.mem_cons.1 hc with h | h
        · exact Or.inl (by simp [h])
        · rcases utf16Combine_mem (u2 :: rest) c h with h1 | h1
          · exact Or.inl (List.mem_cons_of_mem _ h1)
          · exact Or.inr h1

/-- C5 (counterexample): the `uint16` char dataset `[72, 0]` (`"H"` plus a
trailing NUL) decodes with the NUL kept, while the claim's description
(per-unit decode, trailing NUL stripped) predicts it removed. -/
theorem claim_C5_counterexample :
    decode_string charU16 = [72, 0] ∧ decode_string_claimed charU16 = [72] ∧
    decode_string charU16 ≠ decode_string_claimed charU16 := by
  refine ⟨by decide, by decide, by decide⟩

/-- C5 (amended): `decode_string` takes the per-unit codepoint path for any
unsigned kind (the source tests `dtype.kind == 'u'`, not 16-bit
specifically); other kinds decode their raw bytes as UTF-16LE with malformed
units dropped (`errors='ignore'`), never failing; no trailing NUL is
stripped on the unit path; and no replacement character is introduced —
every output codepoint is an input unit or an astral combination. -/
theorem claim_C5_amended (d : Dset) :
    (d.dtype.kind = .u → decode_string d = d.elems) ∧
    (d.dtype.kind ≠ .u →
      decode_string d = utf16Combine (utf16leUnits (to_bytes_le d))) ∧
    (d.dtype.kind = .u → d.elems.getLast? = some 0 →
      (decode_string d).getLast? = some 0) ∧
    (∀ c ∈ decode_string d,
      c ∈ d.elems ∨ c ∈ utf16leUnits (to_bytes_le d) ∨ 0x10000 ≤ c) := by
  refine ⟨?_, ?_, ?_, ?_⟩
  · intro h
    unfold decode_string
    rw [if_pos h]
  · intro h
    unfold decode_string
    rw [if_neg h]
  · intro h h0
    unfold decode_string
    rw [if_pos h]
    exact h0
  · intro c hc
    unfold decode_string at hc
    split at hc
    · exact Or.inl hc
    · rcases utf16Combine_mem _ c hc with h1 | h1
      · exact Or.inr (Or.inl h1)
      · exact Or.inr (Or.inr h1)

/-- C5 (witness): the amended behaviour on the concrete char dataset. -/
theorem claim_C5_witness :
    decode_string charU16 = charU16.elems ∧
    (decode_string charU16).getLast? = some 0 :=
  ⟨(claim_C5_amended charU16).1 rfl, (claim_C5_amended charU16).2.2.1 rfl (by decide)⟩

/-- C4 (counterexample): the MATLAB scalar (declared shape `1×1`) takes the
squeeze arm — `ndim − 1 = 1 ≤ 2` axes are singletons — but squeezing every
singleton axis of a `1×1` array leaves rank 0, not the 1-D result the claim
asserts. -/
theorem claim_C4_counterexample :
    scalarD.shape.length ≠ 1 ∧
    scalarD.shape.length - 1 ≤ scalarD.shape.count 1 ∧
    process_dataset 1 fileZ scalarD = .numeric (numericResult scalarD) ∧
    numericResult scalarD = ⟨[], [5]⟩ ∧
    (numericResult scalarD).shape.length ≠ 1 :=
  ⟨by decide, by decide, rfl, rfl, by decide⟩

/-- C4 (amended): the numeric array path. Rank-1 data returns as is; when at
least `ndim − 1` axes are singletons all singleton axes are squeezed,
producing rank at most 1 — rank exactly 1 when some axis is non-singleton
(an all-singleton array becomes a rank-0 scalar, which the frozen claim
overlooks); otherwise the axes are reversed with elements reordered so that
the decoded array at a multi-index equals the HDF5 buffer at the reversed
multi-index (for 2-D, `A[i, j]` is the MATLAB value at row `i`, column `j`). -/
theorem claim_C4_amended (fuel : Nat) (f : HFile) (d : Dset) (c : String)
    (hc : d.mclass = some c) (hcn : c ∈ numericClasses)
    (hemp : truthyAttr d.mempty = false) :
    process_dataset (fuel + 1) f d = .numeric (numericResult d) ∧
    (d.shape.length = 1 → numericResult d = ⟨d.shape, d.elems⟩) ∧
    (d.shape.length ≠ 1 → d.shape.length - 1 ≤ d.shape.count 1 →
      numericResult d = npSqueeze ⟨d.shape, d.elems⟩ ∧
      (numericResult d).shape = squeezeShape d.shape ∧
      (numericResult d).shape.length ≤ 1 ∧
      ((∃ k ∈ d.shape, k ≠ 1) → (numericResult d).shape.length = 1)) ∧
    (d.shape.length ≠ 1 → d.shape.count 1 < d.shape.length - 1 →
      numericResult d = npTranspose ⟨d.shape, d.elems⟩ ∧
      (numericResult d).shape = d.shape.reverse ∧
      ∀ ix, List.Forall₂ (· < ·) ix d.shape.reverse →
        (numericResult d).getIdx ix = NpArray.getIdx ⟨d.shape, d.elems⟩ ix.reverse) := by
  have hchar : ¬(d.mclass = some "char" ∨ d.mclass = some "string") := by
    rintro (h | h) <;> rw [hc] at h <;> injection h with h <;> subst h <;>
      revert hcn <;> decide
  have hcell : ¬d.mclass = some "cell" := by
    intro h
    rw [hc] at h
    injection h with h
    subst h
    revert hcn
    decide
  have hnum : (match d.mclass with
      | some c0 => numericClasses.contains c0
      | none => false) = true := by
    rw [hc]
    simpa using hcn
  refine ⟨?_, ?_, ?_, ?_⟩
  · simp only [process_dataset, hemp, Bool.false_eq_true, if_false, hchar, hcell, hnum,
      if_true]
  · intro h1
    unfold numericResult
    rw [if_pos h1]
  · intro h1 h2
    unfold numericResult
    rw [if_neg h1, if_pos h2]
    exact ⟨rfl, rfl, squeezeShape_length_le h2, fun hx => squeezeShape_length_eq_one h2 hx⟩
  · intro h1 h2
    unfold numericResult
    rw [if_neg h1, if_neg (by omega)]
    exact ⟨rfl, rfl, fun ix hix => npTranspose_getIdx ⟨d.shape, d.elems⟩ ix hix⟩

/-- C4 (witness): the transpose arm on the `2×3` buffer `0..5`; the decoded
shape is the reversed `[3, 2]` and the element at `[2, 1]` comes from the
HDF5 buffer at `[1, 2]`. -/
theorem claim_C4_witness :
    process_dataset 1 fileZ d23 = .numeric (numericResult d23) ∧
    (numericResult d23).shape = d23.shape.reverse ∧
    (numericResult d23).getIdx [2, 1] =
      NpArray.getIdx ⟨d23.shape, d23.elems⟩ ([2, 1] : List Nat).reverse := by
  have h := claim_C4_amended 0 fileZ d23 "double" rfl (by decide) rfl
  have h4 := h.2.2.2 (by decide) (by decide)
  exact ⟨h.1, h4.2.1, h4.2.2 [2, 1] (by decide)⟩

/-- C3 (counterexample): in `fileC` the metadata blob parses without
`Time_`, so the allocation-based reconstruction fails (empty table) — yet
the caller receives a `{Time, Data}` pair produced by the ref_idx fallback,
not the raw buffer the claim promises on any reconstruction failure. -/
theorem claim_C3_counterexample :
    (get_timeseries_structure_from_metadata fileC mcosA).has_time = false ∧
    build_timeseries_allocation fileC mcosA = [] ∧
    read_matlab_variable 1 fileC "sig" =
      .value (.tsPair ⟨[10, 20, 30], [3], [7, 8, 9]⟩) ∧
    ∀ d : Dset, read_matlab_variable 1 fileC "sig" ≠ .value (.raw d) := by
  refine ⟨rfl, rfl, rfl, fun d h => ?_⟩
  rw [show read_matlab_variable 1 fileC "sig" =
    .value (.tsPair ⟨[10, 20, 30], [3], [7, 8, 9]⟩) from rfl] at h
  exact Value.noConfusion (ReadResult.value.inj h)

/-- C3 (amended): when the metadata parses without `Time_`, the allocation
table is empty and reconstruction via the allocation fails for every
timeseries; the decoder then attempts the ref_idx fallback, and only if the
fallback also fails does the caller receive the dataset's raw buffer. -/
theorem claim_C3_amended (fuel : Nat) (f : HFile) (refs : List (Option String))
    (h : (get_timeseries_structure_from_metadata f refs).has_time = false) :
    build_timeseries_allocation f refs = [] ∧
    ∀ name tsd, lookupPath f name = some (.dset tsd) →
      tsd.mclass = some "timeseries" → f.mcos = some refs →
      process_timeseries f name = fallback_timeseries_extraction f refs tsd ∧
      (fallback_timeseries_extraction f refs tsd = none →
        read_matlab_variable fuel f name = .value (.raw tsd)) := by
  have halloc : build_timeseries_allocation f refs = [] := by
    rw [build_timeseries_allocation_eq, if_pos h]
  refine ⟨halloc, fun name tsd h1 h2 h3 => ?_⟩
  have hproc : process_timeseries f name = fallback_timeseries_extraction f refs tsd :=
    process_timeseries_unalloc h1 h3 (by rw [halloc]; rfl)
  exact ⟨hproc, fun hfb => read_ts_none h1 h2 (hproc.trans hfb)⟩

/-- C3 (witness): in `fileD` the metadata lacks `Time_` and the fallback
finds nothing, so the caller receives the raw stub buffer. -/
theorem claim_C3_witness :
    build_timeseries_allocation fileD [some "#refs#/m"] = [] ∧
    read_matlab_variable 1 fileD "sig" = .value (.raw (tsStub 2)) := by
  have h := claim_C3_amended 1 fileD [some "#refs#/m"] rfl
  exact ⟨h.1, (h.2 "sig" (tsStub 2) rfl rfl rfl).2 rfl⟩

/-- A successful per-slot test yields a `float64` dataset with `n` among its
dimensions. -/
theorem data_slot_test_spec {f : HFile} {refs : List (Option String)} {idx n : Nat}
    {dob : Dset} (h : data_slot_test f refs idx n = some dob) :
    dob.dtype = float64 ∧ n ∈ dob.shape := by
  unfold data_slot_test at h
  split at h
  · exact absurd h (by simp)
  next p hp =>
    split at h
    next dd hdd =>
      split at h
      next hcond =>
        obtain rfl := Option.some.inj h
        exact hcond
      · exact absurd h (by simp)
    · exact absurd h (by simp)

/-- C2: Stage 7 data pairing. The allocated Time slot of a timeseries always
resolves to a `float64` dataset of shape `(1, N)` with `N ≥ 2`; whenever the
scan of slots `s_T+1 … s_T+19` (null references skipped) finds a data
payload, `process_timeseries` returns the Time payload flattened — so
`|Time| = N` — paired with the Data payload squeezed, `N` still among its
dimensions; and the chosen payload is the first slot of the scan passing the
float64-with-`N`-dimension test. -/
theorem claim_C2_data_pairing {f : HFile} {refs : List (Option String)} {name : String}
    {tsd : Dset} {timeIdx : Nat}
    (h1 : lookupPath f name = some (.dset tsd))
    (h2 : f.mcos = some refs)
    (h3 : (build_timeseries_allocation f refs).lookup name = some timeIdx)
    (hwf : WfRefs f refs = true) :
    ∃ p tobj N, refs.getD timeIdx none = some p ∧
      lookupPath f p = some (.dset tobj) ∧
      tobj.dtype = float64 ∧ tobj.shape = [1, N] ∧ 2 ≤ N ∧
      ∀ dob, find_data_slot f refs timeIdx N = some dob →
        process_timeseries f name =
          some ⟨tobj.elems, squeezeShape dob.shape, dob.elems⟩ ∧
        tobj.elems.length = N ∧
        N ∈ squeezeShape dob.shape ∧
        ∃ off, 1 ≤ off ∧ off ≤ 19 ∧
          data_slot_test f refs (timeIdx + off) N = some dob ∧
          ∀ off2, 1 ≤ off2 → off2 < off →
            data_slot_test f refs (timeIdx + off2) N = none := by
  obtain ⟨hsel, hcand⟩ := alloc_slot_mem h3
  obtain ⟨hi1, hi2, p, tobj, hget, hlp, hdt, hemp, N, hsh, hN⟩ := candidate_of_mem hcand
  refine ⟨p, tobj, N, hget, hlp, hdt, hsh, hN, fun dob hfind => ?_⟩
  have hmain := process_timeseries_main h1 h2 h3 hget hlp hdt hsh hN
  rw [hfind] at hmain
  obtain ⟨k, hk1, hk2, hk3, hk4⟩ := findSome?_range'_first
    (fun off => data_slot_test f refs (timeIdx + off) N) 1 19 dob hfind
  refine ⟨hmain, ?_, ?_, k, hk1, by omega, hk3, fun off2 ho1 ho2 => hk4 off2 ho1 ho2⟩
  · have := wfRefs_spec hwf hget hlp
    rw [hsh] at this
    simpa using this
  · have hds := data_slot_test_spec hk3
    exact List.mem_filter.2 ⟨hds.2, by simpa using Nat.ne_of_gt (by omega : 1 < N)⟩

/-- C2 (witness): the pairing on `fileA` — Time slot 1 of length 3, Data at
slot 2 of squeezed shape `[3]`. -/
theorem claim_C2_witness :
    process_timeseries fileA "sig" = some ⟨[10, 20, 30], [3], [7, 8, 9]⟩ := by
  obtain ⟨p, tobj, N, hget, hlp, hdt, hsh, hN, hrest⟩ :=
    @claim_C2_data_pairing fileA mcosA "sig" (tsStub 1) 1 rfl rfl rfl (by decide)
  obtain rfl : p = "#refs#/t" := by
    have h0 : (some "#refs#/t" : Option String) = some p := hget
    exact (Option.some.inj h0).symm
  obtain rfl : tobj = timeDset := by
    have h0 : (some (Node.dset timeDset) : Option Node) = some (Node.dset tobj) := hlp
    have h1 := Option.some.inj h0
    injection h1 with h2
    exact h2.symm
  obtain rfl : N = 3 := by
    have h0 : ([1, 3] : List Nat) = [1, N] := hsh
    injection h0 with _ h2
    injection h2 with h3
    exact h3.symm
  exact (hrest dataDset rfl).1

/-- C10: the fallback. When the allocation misses the requested path, or the
allocated slot fails validation (a group, not `float64`, or empty), the
decoder does not immediately return the raw buffer: it runs the ref_idx
fallback — reading `ref_idx` from element `[0, 4]` of the stub and scanning
slots `max(1, ref_idx − 5) … min(len, ref_idx + 20) − 1` for a `1×N`
`float64` time vector (`N ≥ 2`) paired via the 9 following slots — and only
if the fallback also fails does `read_matlab_variable` return the raw
buffer; a fallback pair is returned to the caller as the result. -/
theorem claim_C10_fallback (fuel : Nat) {f : HFile} {refs : List (Option String)}
    {name : String} {tsd : Dset}
    (h1 : lookupPath f name = some (.dset tsd))
    (h2 : tsd.mclass = some "timeseries")
    (h3 : f.mcos = some refs)
    (htrig : (build_timeseries_allocation f refs).lookup name = none ∨
      ∃ t, (build_timeseries_allocation f refs).lookup name = some t ∧
        ∃ p, refs.getD t none = some p ∧
          ((∃ g gc ch, lookupPath f p = some (.grp g gc ch)) ∨
           ∃ tobj, lookupPath f p = some (.dset tobj) ∧
             (tobj.dtype ≠ float64 ∨ tobj.shape.prod = 0))) :
    process_timeseries f name = fallback_timeseries_extraction f refs tsd ∧
    (fallback_timeseries_extraction f refs tsd = none →
      read_matlab_variable fuel f name = .value (.raw tsd)) ∧
    (∀ q, fallback_timeseries_extraction f refs tsd = some q →
      read_matlab_variable fuel f name = .value (.tsPair q)) ∧
    (∀ r c ridx, tsd.shape = [r, c] → 5 ≤ c → 1 ≤ r →
      tsd.elems.get? 4 = some ridx →
      fallback_timeseries_extraction f refs tsd =
        (List.range' (max 1 (ridx - 5))
          (min refs.length (ridx + 20) - max 1 (ridx - 5))).findSome?
          (fallback_at f refs) ∧
      ∀ q, fallback_timeseries_extraction f refs tsd = some q →
        ∃ s, max 1 (ridx - 5) ≤ s ∧ s < min refs.length (ridx + 20) ∧
          fallback_at f refs s = some q ∧
          ∀ s2, max 1 (ridx - 5) ≤ s2 → s2 < s → fallback_at f refs s2 = none) := by
  have hproc : process_timeseries f name = fallback_timeseries_extraction f refs tsd := by
    rcases htrig with h | ⟨t, ht, p, hp, hbad⟩
    · exact process_timeseries_unalloc h1 h3 h
    · exact process_timeseries_badslot h1 h3 ht hp hbad
  refine ⟨hproc, fun hfb => read_ts_none h1 h2 (hproc.trans hfb),
    fun q hq => read_ts_some h1 h2 (hproc.trans hq), ?_⟩
  intro r c ridx hsh h5 h1r hridx
  have heq : fallback_timeseries_extraction f refs tsd =
      (List.range' (max 1 (ridx - 5))
        (min refs.length (ridx + 20) - max 1 (ridx - 5))).findSome?
        (fallback_at f refs) := by
    unfold fallback_timeseries_extraction
    rw [hsh]
    dsimp only
    rw [if_pos ⟨h5, h1r⟩, hridx]
  refine ⟨heq, fun q hq => ?_⟩
  rw [heq] at hq
  obtain ⟨k, hk1, hk2, hk3, hk4⟩ := findSome?_range'_first (fallback_at f refs) _ _ q hq
  have hk2' : k < min refs.length (ridx + 20) := by
    rcases Nat.le_total (max 1 (ridx - 5)) (min refs.length (ridx + 20)) with hle | hlt
    · omega
    · exfalso
      rw [Nat.sub_eq_zero_of_le hlt] at hq
      simp at hq
  exact ⟨k, hk1, hk2', hk3, hk4⟩

/-- C10 (witness): in `fileC` the allocation misses `sig`, the fallback
succeeds, and its pair is what the caller receives. -/
theorem claim_C10_witness :
    process_timeseries fileC "sig" =
      fallback_timeseries_extraction fileC mcosA (tsStub 2) ∧
    read_matlab_variable 1 fileC "sig" =
      .value (.tsPair ⟨[10, 20, 30], [3], [7, 8, 9]⟩) := by
  have h := @claim_C10_fallback 1 fileC mcosA "sig" (tsStub 2) rfl rfl rfl (Or.inl rfl)
  exact ⟨h.1, h.2.2.1 ⟨[10, 20, 30], [3], [7, 8, 9]⟩ rfl⟩

end MatReader
